import Mathlib

/-!
# Verification of the software rendering pipeline (GRAFICAS-LAB4)

A shallow embedding of the repository's rendering core: the data model
(vertices, fragments, colors, uniforms), the Framebuffer with its
depth-tested write, the frame orchestrator `render` from `src/main.rs`,
the input handler `handle_input`, and the model-matrix builder
`create_model_matrix`.

Floating-point scalars (`f32`) are modelled as rationals (`ℚ`); the
depth buffer's `+infinity` sentinel is modelled with `WithTop ℚ`.
Modules of the repository that are only declared in `main.rs`
(`framebuffer`, `vertex`, `fragment`, `color`, `shaders`, `triangle`)
are modelled from the specification where a claim depends on them; the
rasterizer and the vertex/fragment shader functions enter `render` as
function parameters, mirroring the function-pointer style of the source.
-/

namespace Lab4

/-- 2D vector of rationals, modelling a `Vec2` of `f32`. -/
structure Vec2Q where
  x : ℚ
  y : ℚ
deriving DecidableEq, Repr

/-- 3D vector of rationals, modelling a `Vec3` of `f32`. -/
structure Vec3Q where
  x : ℚ
  y : ℚ
  z : ℚ
deriving DecidableEq, Repr

/-- Modelled from the spec: `color.rs` is absent from the sources; §2 and
§3 describe Color as a packed RGB value. `to_hex` packs the three
channels into one machine word as `0xRRGGBB`. -/
structure Color where
  r : ℕ
  g : ℕ
  b : ℕ
deriving DecidableEq, Repr

/-- Modelled from the spec: packing of an RGB color into a single hex
word, as used by `render` via `shaded_color.to_hex()`. -/
def Color.to_hex (c : Color) : ℕ :=
  c.r * 65536 + c.g * 256 + c.b

/-- Modelled from the spec: `vertex.rs` is absent from the sources; §3
describes a Vertex as position, normal and texture coordinate (model
space). `render` accesses `position.x/y/z` directly. -/
structure Vertex where
  position : Vec3Q
  normal : Vec3Q
  tex_coords : Vec2Q
deriving DecidableEq, Repr

/-- Modelled from the spec: `fragment.rs` is absent from the sources; §3
describes a Fragment as a screen-space position (pixel coordinates),
a depth, interpolated normal, texture coordinate and intensity.
`render` accesses `position.x`, `position.y` and `depth`. -/
structure Fragment where
  position : Vec2Q
  depth : ℚ
  normal : Vec3Q
  tex_coords : Vec2Q
  intensity : ℚ
deriving DecidableEq, Repr

/-- The noise-type selector of the `fastnoise_lite` crate, restricted to
the variant the program uses. -/
inductive NoiseType where
  | OpenSimplex2
deriving DecidableEq, Repr

/-- Configuration of a `FastNoiseLite` generator: a seed plus the
selected noise type (the only two fields the program sets). -/
structure FastNoiseLite where
  seed : ℤ
  noise_type : Option NoiseType
deriving DecidableEq, Repr

/-- `FastNoiseLite::with_seed(seed)`: a generator with the given seed and
no noise type selected yet. -/
def FastNoiseLite.with_seed (seed : ℤ) : FastNoiseLite :=
  { seed := seed, noise_type := none }

/-- `noise.set_noise_type(t)`. -/
def FastNoiseLite.set_noise_type (n : FastNoiseLite) (t : Option NoiseType) :
    FastNoiseLite :=
  { n with noise_type := t }

/-- `create_noise` from `main.rs`: seed 1337, OpenSimplex2. -/
def create_noise : FastNoiseLite :=
  (FastNoiseLite.with_seed 1337).set_noise_type (some NoiseType.OpenSimplex2)

/-- 4×4 rational matrix, modelling `Mat4`. -/
abbrev Mat4 := Matrix (Fin 4) (Fin 4) ℚ

/-- The `Uniforms` struct of `main.rs`. -/
structure Uniforms where
  model_matrix : Mat4
  view_matrix : Mat4
  projection_matrix : Mat4
  viewport_matrix : Mat4
  time : ℚ
  noise : FastNoiseLite

/-- Modelled from the spec: `framebuffer.rs` is absent from the sources;
§4.5 describes the Framebuffer as a pixel-color buffer and a depth
buffer of equal length width×height, a configured background color and
the current drawing color. Depth entries use `WithTop ℚ`, whose `⊤` is
the "far" (+infinity) sentinel of the spec. -/
structure Framebuffer where
  width : ℕ
  height : ℕ
  buffer : List ℕ
  zbuffer : List (WithTop ℚ)
  background_color : ℕ
  current_color : ℕ
deriving DecidableEq, Repr

namespace Framebuffer

/-- Modelled from the spec: a fresh framebuffer of the given size; both
buffers have length width×height and every depth starts at the far
sentinel. -/
def new (width height : ℕ) : Framebuffer :=
  { width := width
    height := height
    buffer := List.replicate (width * height) 0
    zbuffer := List.replicate (width * height) ⊤
    background_color := 0
    current_color := 0 }

/-- Modelled from the spec (§4.5): `clear()` resets every pixel to the
configured background color and every depth entry to the far sentinel. -/
def clear (fb : Framebuffer) : Framebuffer :=
  { fb with
    buffer := List.replicate (fb.width * fb.height) fb.background_color
    zbuffer := List.replicate (fb.width * fb.height) ⊤ }

/-- Modelled from the spec (§4.5): `set_background_color(c)`. -/
def set_background_color (fb : Framebuffer) (c : ℕ) : Framebuffer :=
  { fb with background_color := c }

/-- Modelled from the spec (§4.5): `set_current_color(c)`. -/
def set_current_color (fb : Framebuffer) (c : ℕ) : Framebuffer :=
  { fb with current_color := c }

/-- Modelled from the spec (§4.5): `point(x, y, depth)` — depth-tested
write. Writes color and depth at `(x,y)` only if `depth` is strictly
less than the stored depth; otherwise a no-op. An index outside the
buffers (the spec requires the caller to stay in bounds) is a no-op. -/
def point (fb : Framebuffer) (x y : ℕ) (depth : ℚ) : Framebuffer :=
  let index := y * fb.width + x
  match fb.zbuffer[index]? with
  | some stored =>
      if (depth : WithTop ℚ) < stored then
        { fb with
          buffer := fb.buffer.set index fb.current_color
          zbuffer := fb.zbuffer.set index (depth : WithTop ℚ) }
      else fb
  | none => fb

end Framebuffer

/-- The `set_current_color`-then-`point` pair that `render` performs for
an accepted fragment (`main.rs` lines 272–273 and 283–284). -/
def writeFragment (fb : Framebuffer) (x y : ℕ) (depth : ℚ) (c : ℕ) :
    Framebuffer :=
  (fb.set_current_color c).point x y depth

/-- Rust's saturating `f32 as usize` cast on a rational: truncation
toward zero, with negative values saturating to 0. -/
def ratToUsize (q : ℚ) : ℕ := ⌊q⌋.toNat

/-- One iteration of `render`'s fragment-compositing loop (`main.rs`
lines 279–286, and identically 268–274 for the ring): cast the
fragment's position to pixel indices, and only when both are in bounds
shade the fragment and perform the depth-tested write. -/
def compositeFragment (shade : Fragment → Color) (fb : Framebuffer)
    (fragment : Fragment) : Framebuffer :=
  let x := ratToUsize fragment.position.x
  let y := ratToUsize fragment.position.y
  if x < fb.width ∧ y < fb.height then
    writeFragment fb x y fragment.depth (shade fragment).to_hex
  else fb

/-- Rust's `slice::chunks(3)`: successive sub-slices of length 3, the
last one possibly shorter (`transformed_vertices.chunks(3)` in
`render`). -/
def chunks3 {α : Type} : List α → List (List α)
  | [] => []
  | [a] => [[a]]
  | [a, b] => [[a, b]]
  | a :: b :: c :: rest => [a, b, c] :: chunks3 rest

/-- The triangle-grouping step of `render` (`main.rs` lines 233–236 and
259–262): `chunks(3)`, keep only the chunks of length exactly 3, and
read each as a triangle `(tri[0], tri[1], tri[2])`. -/
def groupTriangles {α : Type} (l : List α) : List (α × α × α) :=
  (chunks3 l).filterMap fun tri =>
    match tri with
    | [a, b, c] => some (a, b, c)
    | _ => none

/-- The planet vertex-transform step of `render` (`main.rs` lines
229–231): map the vertex shader over the vertex array. The vertex
shader (from the absent `shaders.rs`) is a function parameter. -/
def transformedVertices (vertexShaderFn : Vertex → Uniforms → Vertex)
    (uniforms : Uniforms) (vertex_array : List Vertex) : List Vertex :=
  vertex_array.map fun v => vertexShaderFn v uniforms

/-- The fixed model-space offset applied to ring vertices
(`main.rs` line 247): `Vec3::new(0.0, -0.4, 0.0)`. -/
def ringTranslation : Vec3Q := ⟨0, -0.4, 0⟩

/-- The ring vertex-transform step of `render` (`main.rs` lines
249–257): clone each ring vertex, add the fixed translation to each
position component, then run the vertex shader. -/
def transformedRingVertices (vertexShaderFn : Vertex → Uniforms → Vertex)
    (uniforms : Uniforms) (ring_vertex_array : List Vertex) : List Vertex :=
  ring_vertex_array.map fun v =>
    vertexShaderFn
      { v with
        position :=
          ⟨v.position.x + ringTranslation.x,
           v.position.y + ringTranslation.y,
           v.position.z + ringTranslation.z⟩ }
      uniforms

/-- The planet rasterization step of `render` (`main.rs` lines 238–243):
an empty fragment vector extended with each triangle's fragments in
order. The rasterizer `triangle` (from the absent `triangle.rs`) is a
function parameter. -/
def planetFragments (triangleFn : Vertex → Vertex → Vertex → List Fragment)
    (vertexShaderFn : Vertex → Uniforms → Vertex) (uniforms : Uniforms)
    (vertex_array : List Vertex) : List Fragment :=
  (groupTriangles (transformedVertices vertexShaderFn uniforms vertex_array)).foldl
    (fun acc tri => acc ++ triangleFn tri.1 tri.2.1 tri.2.2) []

/-- The ring pass of `render` (`main.rs` lines 246–277): transform the
translated ring vertices, group into triangles, rasterize each, and
shade-and-composite every ring fragment with the ring shader. -/
def ringPass (triangleFn : Vertex → Vertex → Vertex → List Fragment)
    (vertexShaderFn : Vertex → Uniforms → Vertex)
    (ring_shader_fn : Fragment → Uniforms → Color) (fb : Framebuffer)
    (uniforms : Uniforms) (ring_vertex_array : List Vertex) : Framebuffer :=
  (groupTriangles
      (transformedRingVertices vertexShaderFn uniforms ring_vertex_array)).foldl
    (fun acc tri =>
      (triangleFn tri.1 tri.2.1 tri.2.2).foldl
        (compositeFragment fun f => ring_shader_fn f uniforms) acc)
    fb

/-- `render` from `main.rs` (lines 228–287). The functions imported from
the absent modules — the vertex shader, the rasterizer `triangle`, the
ring shader — are parameters, as is `current_shader` (a function pointer
in the source). Planet vertices are transformed, grouped and rasterized
into `fragments` first; then, when `show_ring` is set, the ring is
transformed, rasterized, shaded and composited; finally the collected
planet fragments are shaded and composited. -/
def render (triangleFn : Vertex → Vertex → Vertex → List Fragment)
    (vertexShaderFn : Vertex → Uniforms → Vertex)
    (ring_shader_fn : Fragment → Uniforms → Color)
    (current_shader : Fragment → Uniforms → Color) (fb : Framebuffer)
    (uniforms : Uniforms) (vertex_array ring_vertex_array : List Vertex)
    (show_ring : Bool) : Framebuffer :=
  let fragments := planetFragments triangleFn vertexShaderFn uniforms vertex_array
  let fb1 :=
    if show_ring then
      ringPass triangleFn vertexShaderFn ring_shader_fn fb uniforms
        ring_vertex_array
    else fb
  fragments.foldl (compositeFragment fun f => current_shader f uniforms) fb1

/-- The closed set of shader functions `current_shader` can point at
(the eight planet shaders of `handle_input` plus the ring shader), each
tag naming one function of the absent `shaders.rs`. -/
inductive ShaderKind where
  | rocky_planet_shader
  | gas_giant_shader
  | gas_giant_shader2
  | volcanic_planet_shader
  | icy_planet_shader
  | desert_planet_shader
  | water_planet_shader
  | moon_shader
  | ring_shader
deriving DecidableEq, Repr

/-- The number-key states `handle_input` reads for shader selection
(`window.is_key_down(Key::Key1)` … `Key8`). -/
structure InputKeys where
  key1 : Bool
  key2 : Bool
  key3 : Bool
  key4 : Bool
  key5 : Bool
  key6 : Bool
  key7 : Bool
  key8 : Bool
deriving DecidableEq, Repr

/-- The mutable state `handle_input` threads for shader selection: the
`current_shader` function pointer (as its tag) and the `show_ring`
flag. The camera branches of `handle_input` mutate only the camera and
are omitted here. -/
structure ShaderState where
  current_shader : ShaderKind
  show_ring : Bool
deriving DecidableEq, Repr

/-- The shader-selection portion of `handle_input` (`main.rs` lines
154–185): eight sequential `if is_key_down` blocks; keys 1 and 3–7 set
the shader and force `show_ring` to false, key 8 sets it to true, and
key 2 sets only the shader. -/
def handle_input (w : InputKeys) (s : ShaderState) : ShaderState :=
  let s := if w.key1 then
    { s with current_shader := .rocky_planet_shader, show_ring := false } else s
  let s := if w.key2 then
    { s with current_shader := .gas_giant_shader } else s
  let s := if w.key3 then
    { s with current_shader := .volcanic_planet_shader, show_ring := false } else s
  let s := if w.key4 then
    { s with current_shader := .icy_planet_shader, show_ring := false } else s
  let s := if w.key5 then
    { s with current_shader := .desert_planet_shader, show_ring := false } else s
  let s := if w.key6 then
    { s with current_shader := .water_planet_shader, show_ring := false } else s
  let s := if w.key7 then
    { s with current_shader := .moon_shader, show_ring := false } else s
  let s := if w.key8 then
    { s with current_shader := .gas_giant_shader2, show_ring := true } else s
  s

/-! ## Transform Builder

`create_model_matrix` (`main.rs` lines 40–76). The source computes
`(sin_x, cos_x) = rotation.x.sin_cos()` (and likewise for y, z) and uses
the results only as matrix entries; the sine/cosine pairs are therefore
passed here as explicit rational parameters, since `f32` trigonometry
has no exact rational counterpart. `Mat4::new` of nalgebra takes its
sixteen arguments row by row, matching `!![...]`. -/

/-- `rotation_matrix_x` of `create_model_matrix`. -/
def rotation_matrix_x (sin_x cos_x : ℚ) : Mat4 :=
  !![1, 0,     0,      0;
     0, cos_x, -sin_x, 0;
     0, sin_x, cos_x,  0;
     0, 0,     0,      1]

/-- `rotation_matrix_y` of `create_model_matrix`. -/
def rotation_matrix_y (sin_y cos_y : ℚ) : Mat4 :=
  !![cos_y,  0, sin_y, 0;
     0,      1, 0,     0;
     -sin_y, 0, cos_y, 0;
     0,      0, 0,     1]

/-- `rotation_matrix_z` of `create_model_matrix`. -/
def rotation_matrix_z (sin_z cos_z : ℚ) : Mat4 :=
  !![cos_z, -sin_z, 0, 0;
     sin_z, cos_z,  0, 0;
     0,     0,      1, 0;
     0,     0,      0, 1]

/-- `rotation_matrix = rotation_matrix_z * rotation_matrix_y *
rotation_matrix_x` of `create_model_matrix`. -/
def rotation_matrix (sin_x cos_x sin_y cos_y sin_z cos_z : ℚ) : Mat4 :=
  rotation_matrix_z sin_z cos_z * rotation_matrix_y sin_y cos_y *
    rotation_matrix_x sin_x cos_x

/-- `transform_matrix` of `create_model_matrix`: uniform scale on the
diagonal, the translation in the last column. -/
def transform_matrix (translation : Vec3Q) (scale : ℚ) : Mat4 :=
  !![scale, 0,     0,     translation.x;
     0,     scale, 0,     translation.y;
     0,     0,     scale, translation.z;
     0,     0,     0,     1]

/-- `create_model_matrix(translation, scale, rotation)` (`main.rs`
lines 40–76): `transform_matrix * rotation_matrix`. -/
def create_model_matrix (translation : Vec3Q) (scale : ℚ)
    (sin_x cos_x sin_y cos_y sin_z cos_z : ℚ) : Mat4 :=
  transform_matrix translation scale *
    rotation_matrix sin_x cos_x sin_y cos_y sin_z cos_z

/-- A 3D point as a homogeneous 4-vector with w = 1. -/
def homogeneous (p : Vec3Q) : Fin 4 → ℚ := ![p.x, p.y, p.z, 1]

/-- The rotation about X acting on a point, as `rotation_matrix_x` acts
on the first three coordinates. -/
def rotateX (sin_x cos_x : ℚ) (p : Vec3Q) : Vec3Q :=
  ⟨p.x, cos_x * p.y - sin_x * p.z, sin_x * p.y + cos_x * p.z⟩

/-- The rotation about Y acting on a point. -/
def rotateY (sin_y cos_y : ℚ) (p : Vec3Q) : Vec3Q :=
  ⟨cos_y * p.x + sin_y * p.z, p.y, -sin_y * p.x + cos_y * p.z⟩

/-- The rotation about Z acting on a point. -/
def rotateZ (sin_z cos_z : ℚ) (p : Vec3Q) : Vec3Q :=
  ⟨cos_z * p.x - sin_z * p.y, sin_z * p.x + cos_z * p.y, p.z⟩

/-- Uniform scaling of a point. -/
def scaleVec (s : ℚ) (p : Vec3Q) : Vec3Q := ⟨s * p.x, s * p.y, s * p.z⟩

/-- Translation of a point. -/
def translateVec (t p : Vec3Q) : Vec3Q := ⟨p.x + t.x, p.y + t.y, p.z + t.z⟩

/-! ## Shading System

`shaders.rs` is absent from the sources; the shader variants are
modelled from the spec (§4.4): each is a pure function
`(Fragment, Uniforms) → Color` that samples a seeded coherent-noise
field at coordinates derived from the fragment's normal or texture
coordinate and elapsed time, maps through thresholds/band blends to a
base color, and scales by the fragment's intensity. The exact
OpenSimplex2 values are not reconstructed: only the sampler's purity
(being a function of the generator configuration and the coordinates)
matters to the stated properties, so a fixed computable rational
function stands in for it. -/

/-- Modelled from the spec: a deterministic stand-in for
`FastNoiseLite::get_noise_2d` — a pure function of the generator's
configuration (seed, noise type) and the sample coordinates. -/
def FastNoiseLite.get_noise_2d (n : FastNoiseLite) (x y : ℚ) : ℚ :=
  let t : ℚ := match n.noise_type with
    | some NoiseType.OpenSimplex2 => 2
    | none => 1
  (n.seed : ℚ) * t + 31 * x + 37 * y

/-- Modelled from the spec: scaling a base color by the fragment's
intensity, channel-wise, truncated to whole channel values. -/
def Color.scaleBy (c : Color) (i : ℚ) : Color :=
  ⟨(⌊(c.r : ℚ) * i⌋).toNat, (⌊(c.g : ℚ) * i⌋).toNat, (⌊(c.b : ℚ) * i⌋).toNat⟩

/-- Modelled from the spec: a threshold-style planet shader body —
sample the noise at the texture coordinate, pick one of two base colors
by a threshold, scale by intensity. Instantiated with different colors
and thresholds for the rocky/volcanic/icy/desert/water/moon variants. -/
def thresholdShader (hi lo : Color) (cut : ℚ) (f : Fragment)
    (u : Uniforms) : Color :=
  let sample := u.noise.get_noise_2d (f.tex_coords.x * 100) (f.tex_coords.y * 100)
  (if cut < sample then hi else lo).scaleBy f.intensity

/-- Modelled from the spec: a gas-giant shader body — latitude bands
from the normal's vertical component, drifted by elapsed time, blended
between two band colors, scaled by intensity. -/
def bandShader (bandA bandB : Color) (f : Fragment) (u : Uniforms) : Color :=
  let lat := f.normal.y * 10 + u.time
  (if 0 < u.noise.get_noise_2d lat u.time then bandA else bandB).scaleBy
    f.intensity

/-- Modelled from the spec: the ring shader — banded coloration from the
texture coordinate without full lighting. -/
def ringShaderBody (f : Fragment) (u : Uniforms) : Color :=
  if 0 < u.noise.get_noise_2d (f.tex_coords.x * 50) 0 then
    ⟨200, 200, 180⟩
  else
    ⟨120, 110, 100⟩

/-- Modelled from the spec: the shader variant named by a `ShaderKind`,
dispatched as a pure function of `(Fragment, Uniforms)`. -/
def runShader (k : ShaderKind) (f : Fragment) (u : Uniforms) : Color :=
  match k with
  | .rocky_planet_shader => thresholdShader ⟨140, 110, 90⟩ ⟨90, 70, 60⟩ 0 f u
  | .gas_giant_shader => bandShader ⟨210, 180, 140⟩ ⟨170, 130, 100⟩ f u
  | .gas_giant_shader2 => bandShader ⟨200, 190, 160⟩ ⟨150, 140, 120⟩ f u
  | .volcanic_planet_shader => thresholdShader ⟨200, 60, 20⟩ ⟨60, 30, 20⟩ (1/2) f u
  | .icy_planet_shader => thresholdShader ⟨220, 235, 255⟩ ⟨160, 190, 220⟩ 0 f u
  | .desert_planet_shader => thresholdShader ⟨210, 180, 120⟩ ⟨180, 140, 90⟩ 0 f u
  | .water_planet_shader => thresholdShader ⟨40, 90, 180⟩ ⟨20, 50, 120⟩ (1/4) f u
  | .moon_shader => thresholdShader ⟨190, 190, 190⟩ ⟨120, 120, 120⟩ 0 f u
  | .ring_shader => ringShaderBody f u

/-! ## Helper lemmas -/

/-- The saturating cast sends every negative rational to 0. -/
theorem ratToUsize_eq_zero_of_neg {q : ℚ} (h : q < 0) : ratToUsize q = 0 := by
  unfold ratToUsize
  exact Int.toNat_eq_zero.mpr (Int.floor_nonpos h.le)

/-! ## Claims -/

/-- C7: depth-test idempotence — performing the depth-tested write of
the same fragment `(x, y, depth, color)` twice in succession leaves the
Framebuffer in exactly the state of performing it once; the second
write fails the strict `depth < stored_depth` test and is a no-op. -/
theorem depth_test_idempotent (fb : Framebuffer) (x y : ℕ) (d : ℚ) (c : ℕ) :
    writeFragment (writeFragment fb x y d c) x y d c =
      writeFragment fb x y d c := by
  obtain ⟨w, h, buf, zbuf, bg, cc⟩ := fb
  simp only [writeFragment, Framebuffer.set_current_color, Framebuffer.point]
  rcases hz : zbuf[y * w + x]? with _ | stored
  · simp [hz]
  · simp only [hz]
    by_cases hd : (d : WithTop ℚ) < stored
    · have hlt : y * w + x < zbuf.length := (List.getElem?_eq_some.mp hz).1
      simp only [if_pos hd]
      rw [List.getElem?_set_eq_of_lt _ hlt]
      simp
    · simp [if_neg hd, hz]

/-- C1: depth ordering — at a pixel `(x,y)` with two fragments of
depths `d1 < d2` (the nearer one also nearer than the initially stored
depth), writing the `d2` fragment then the `d1` fragment stores `d1`'s
color, and writing the `d1` fragment then the `d2` fragment also leaves
`d1`'s color stored: the nearer fragment wins regardless of order. -/
theorem depth_ordering (fb : Framebuffer) (x y : ℕ) (d1 d2 : ℚ) (c1 c2 : ℕ)
    (hbuf : y * fb.width + x < fb.buffer.length)
    (hzlen : y * fb.width + x < fb.zbuffer.length)
    (hd12 : d1 < d2)
    (hstored : (d1 : WithTop ℚ) < fb.zbuffer.getD (y * fb.width + x) ⊤) :
    (writeFragment (writeFragment fb x y d2 c2) x y d1 c1).buffer[y * fb.width + x]?
        = some c1 ∧
      (writeFragment (writeFragment fb x y d1 c1) x y d2 c2).buffer[y * fb.width + x]?
        = some c1 := by
  obtain ⟨w, h, buf, zbuf, bg, cc⟩ := fb
  simp only at hbuf hzlen hstored
  have hz : zbuf[y * w + x]? = some zbuf[y * w + x] :=
    List.getElem?_eq_getElem hzlen
  rw [List.getD_eq_getElem?_getD, hz] at hstored
  simp only [Option.getD_some] at hstored
  simp only [writeFragment, Framebuffer.set_current_color, Framebuffer.point]
  constructor
  · -- draw d2 first, then d1
    by_cases hd2 : (d2 : WithTop ℚ) < zbuf[y * w + x]
    · simp only [hz, if_pos hd2]
      rw [List.getElem?_set_eq_of_lt _ (by simpa using hzlen)]
      have hlt : ((d1 : ℚ) : WithTop ℚ) < ((d2 : ℚ) : WithTop ℚ) :=
        WithTop.coe_lt_coe.mpr hd12
      simp only [if_pos hlt]
      rw [List.getElem?_set_eq_of_lt _ (by simpa using hbuf)]
    · simp only [hz, if_neg hd2]
      simp only [hz, if_pos hstored]
      rw [List.getElem?_set_eq_of_lt _ hbuf]
  · -- draw d1 first, then d2
    simp only [hz, if_pos hstored]
    rw [List.getElem?_set_eq_of_lt _ (by simpa using hzlen)]
    have hnlt : ¬ ((d2 : ℚ) : WithTop ℚ) < ((d1 : ℚ) : WithTop ℚ) := by
      rw [WithTop.coe_lt_coe]
      exact fun hlt => absurd hd12 (not_lt_of_gt hlt)
    simp only [if_neg hnlt]
    rw [List.getElem?_set_eq_of_lt _ hbuf]

/-- C1 witness: on a fresh 2×2 framebuffer (stored depth = far), the
fragments (depth 0, color 5) and (depth 1, color 7) at pixel (0,0) end
with color 5 stored in either draw order. -/
theorem depth_ordering_witness :
    (writeFragment (writeFragment (Framebuffer.new 2 2) 0 0 1 7) 0 0 0 5).buffer[0]?
        = some 5 ∧
      (writeFragment (writeFragment (Framebuffer.new 2 2) 0 0 0 5) 0 0 1 7).buffer[0]?
        = some 5 :=
  depth_ordering (Framebuffer.new 2 2) 0 0 0 1 5 7 (by decide) (by decide)
    (by norm_num) (by decide)

/-- C2: bounds rejection — a fragment whose cast pixel coordinate has
`x ≥ width` or `y ≥ height` never mutates the Framebuffer: the loop
body of `render` returns the buffer unchanged, without shading or
writing. -/
theorem bounds_rejection (shade : Fragment → Color) (fb : Framebuffer)
    (f : Fragment)
    (hout : fb.width ≤ ratToUsize f.position.x ∨
      fb.height ≤ ratToUsize f.position.y) :
    compositeFragment shade fb f = fb := by
  unfold compositeFragment
  rw [if_neg]
  rintro ⟨hx, hy⟩
  rcases hout with hw | hh
  · exact absurd hx (not_lt_of_ge hw)
  · exact absurd hy (not_lt_of_ge hh)

/-- C2 witness: a fragment at position (5, 0) against a 2×2 framebuffer
(5 ≥ 2) leaves the framebuffer unchanged. -/
theorem bounds_rejection_witness :
    compositeFragment (fun _ => ⟨0, 0, 0⟩) (Framebuffer.new 2 2)
        ⟨⟨5, 0⟩, 0, ⟨0, 0, 1⟩, ⟨0, 0⟩, 1⟩ =
      Framebuffer.new 2 2 :=
  bounds_rejection (fun _ => ⟨0, 0, 0⟩) (Framebuffer.new 2 2)
    ⟨⟨5, 0⟩, 0, ⟨0, 0, 1⟩, ⟨0, 0⟩, 1⟩ (Or.inl (by decide))

/-- C9: a fragment with a negative screen coordinate is not discarded —
the saturating `as usize` cast clamps the negative coordinate to 0, so
when the other coordinate is in range the fragment passes the bounds
check and is submitted to the depth-tested write at column 0
(respectively row 0). -/
theorem negative_coordinate_saturates (shade : Fragment → Color)
    (fb : Framebuffer) (f : Fragment) :
    (f.position.x < 0 → 0 < fb.width → ratToUsize f.position.y < fb.height →
        compositeFragment shade fb f =
          writeFragment fb 0 (ratToUsize f.position.y) f.depth
            (shade f).to_hex) ∧
      (f.position.y < 0 → 0 < fb.height → ratToUsize f.position.x < fb.width →
        compositeFragment shade fb f =
          writeFragment fb (ratToUsize f.position.x) 0 f.depth
            (shade f).to_hex) := by
  constructor
  · intro hx hw hy
    unfold compositeFragment
    rw [ratToUsize_eq_zero_of_neg hx]
    exact if_pos ⟨hw, hy⟩
  · intro hy hh hx
    unfold compositeFragment
    rw [ratToUsize_eq_zero_of_neg hy]
    exact if_pos ⟨hx, hh⟩

/-- C9 witness: a fragment at position (-1/2, 3) against a 4×4
framebuffer passes the bounds check and is written at column 0, row 3. -/
theorem negative_coordinate_saturates_witness :
    compositeFragment (fun _ => ⟨9, 9, 9⟩) (Framebuffer.new 4 4)
        ⟨⟨-(1/2 : ℚ), 3⟩, 0, ⟨0, 0, 1⟩, ⟨0, 0⟩, 1⟩ =
      writeFragment (Framebuffer.new 4 4) 0 3 0 (Color.to_hex ⟨9, 9, 9⟩) :=
  (negative_coordinate_saturates (fun _ => ⟨9, 9, 9⟩) (Framebuffer.new 4 4)
      ⟨⟨-(1/2 : ℚ), 3⟩, 0, ⟨0, 0, 1⟩, ⟨0, 0⟩, 1⟩).1
    (by norm_num) (by decide) (by decide)

/-- C3: shader/ring-flag coupling of `handle_input` — selecting shader
1, 3, 4, 5, 6 or 7 sets the ring flag to false; selecting shader 8 sets
it to true; selecting shader 2 sets the shader but leaves the ring flag
at its prior value; with no shader key pressed, both the shader and the
ring flag are unchanged. -/
theorem shader_selection_ring_coupling (s : ShaderState) :
    handle_input ⟨true, false, false, false, false, false, false, false⟩ s =
        ⟨.rocky_planet_shader, false⟩ ∧
      handle_input ⟨false, true, false, false, false, false, false, false⟩ s =
        ⟨.gas_giant_shader, s.show_ring⟩ ∧
      handle_input ⟨false, false, true, false, false, false, false, false⟩ s =
        ⟨.volcanic_planet_shader, false⟩ ∧
      handle_input ⟨false, false, false, true, false, false, false, false⟩ s =
        ⟨.icy_planet_shader, false⟩ ∧
      handle_input ⟨false, false, false, false, true, false, false, false⟩ s =
        ⟨.desert_planet_shader, false⟩ ∧
      handle_input ⟨false, false, false, false, false, true, false, false⟩ s =
        ⟨.water_planet_shader, false⟩ ∧
      handle_input ⟨false, false, false, false, false, false, true, false⟩ s =
        ⟨.moon_shader, false⟩ ∧
      handle_input ⟨false, false, false, false, false, false, false, true⟩ s =
        ⟨.gas_giant_shader2, true⟩ ∧
      handle_input ⟨false, false, false, false, false, false, false, false⟩ s =
        s := by
  obtain ⟨cs, sr⟩ := s
  exact ⟨rfl, rfl, rfl, rfl, rfl, rfl, rfl, rfl, rfl⟩

/-- `chunks3` on fewer than three elements produces no full chunk to
keep. -/
theorem groupTriangles_small {α : Type} (a b : α) :
    groupTriangles ([] : List α) = [] ∧ groupTriangles [a] = [] ∧
      groupTriangles [a, b] = [] :=
  ⟨rfl, rfl, rfl⟩

/-- Unfolding `groupTriangles` over a full leading chunk. -/
theorem groupTriangles_cons3 {α : Type} (a b c : α) (rest : List α) :
    groupTriangles (a :: b :: c :: rest) = (a, b, c) :: groupTriangles rest :=
  rfl

/-- The number of triangles is the vertex count divided by three. -/
theorem groupTriangles_length {α : Type} :
    ∀ l : List α, (groupTriangles l).length = l.length / 3
  | [] => by simp [groupTriangles, chunks3]
  | [_] => by simp [groupTriangles, chunks3]
  | [_, _] => by simp [groupTriangles, chunks3]
  | _ :: _ :: _ :: rest => by
    rw [groupTriangles_cons3, List.length_cons, groupTriangles_length rest]
    simp only [List.length_cons]
    omega

/-- Triangle `k` is exactly the elements at positions `3k`, `3k+1`,
`3k+2` of the vertex sequence. -/
theorem groupTriangles_getElem {α : Type} :
    ∀ (l : List α) (k : ℕ),
      (groupTriangles l)[k]? =
        l[3 * k]?.bind fun a =>
          l[3 * k + 1]?.bind fun b => l[3 * k + 2]?.map fun c => (a, b, c)
  | [], k => by simp [groupTriangles, chunks3]
  | [a], k => by
    have h1 : ([a] : List α)[3 * k + 1]? = none :=
      List.getElem?_eq_none (by simp)
    simp [groupTriangles, chunks3, h1]
  | [a, b], k => by
    have h2 : ([a, b] : List α)[3 * k + 2]? = none :=
      List.getElem?_eq_none (by simp)
    simp [groupTriangles, chunks3, h2]
  | a :: b :: c :: rest, 0 => by
    rw [groupTriangles_cons3]
    norm_num
  | a :: b :: c :: rest, (k + 1) => by
    rw [groupTriangles_cons3]
    have e1 : 3 * (k + 1) = 3 * k + 1 + 1 + 1 := by ring
    rw [List.getElem?_cons_succ, e1]
    have e4 : 3 * k + 1 + 1 + 1 + 2 = 3 * k + 2 + 1 + 1 + 1 := by ring
    rw [e4]
    simp only [List.getElem?_cons_succ]
    exact groupTriangles_getElem rest k

/-- C5: positional triangle membership — grouping the transformed
vertex sequence into triangles yields, at index `k`, exactly the
elements at positions `3k`, `3k+1`, `3k+2`, and the number of triangles
is `length / 3`: a trailing remainder of one or two vertices produces
no triangle. -/
theorem positional_triangle_grouping (l : List Vertex) (k : ℕ) :
    (groupTriangles l).length = l.length / 3 ∧
      (groupTriangles l)[k]? =
        l[3 * k]?.bind fun a =>
          l[3 * k + 1]?.bind fun b => l[3 * k + 2]?.map fun c => (a, b, c) :=
  ⟨groupTriangles_length l, groupTriangles_getElem l k⟩

/-- C8: shader determinism — every shader variant, invoked twice with
identical `(Fragment, Uniforms)` inputs whose noise field is the
generator of `create_noise` (seed 1337, OpenSimplex2), yields identical
Color output on both runs. -/
theorem shader_determinism (k : ShaderKind) (f1 f2 : Fragment)
    (u1 u2 : Uniforms) (hf : f1 = f2) (hu : u1 = u2)
    (hnoise : u1.noise = create_noise) :
    runShader k f1 u1 = runShader k f2 u2 := by
  subst hf
  subst hu
  rfl

/-- C8 witness: the rocky shader on a concrete fragment and concrete
uniforms carrying `create_noise` gives the same color on both runs. -/
theorem shader_determinism_witness :
    runShader .rocky_planet_shader ⟨⟨3, 4⟩, 0, ⟨0, 0, 1⟩, ⟨1/2, 1/2⟩, 1⟩
        ⟨1, 1, 1, 1, 0, create_noise⟩ =
      runShader .rocky_planet_shader ⟨⟨3, 4⟩, 0, ⟨0, 0, 1⟩, ⟨1/2, 1/2⟩, 1⟩
        ⟨1, 1, 1, 1, 0, create_noise⟩ :=
  shader_determinism ShaderKind.rocky_planet_shader _ _ _ _ rfl rfl rfl

/-- C10: ring vertices are translated before shading — when the ring
flag is set, each ring vertex sent to the vertex shader is a copy whose
position is offset by exactly (0, -0.4, 0), while each planet vertex is
passed to the vertex shader with its position untouched; the ring
vertex array itself is consumed read-only (`render` returns only the
new Framebuffer). -/
theorem ring_vertices_translated (vertexShaderFn : Vertex → Uniforms → Vertex)
    (uniforms : Uniforms) (vertex_array ring_vertex_array : List Vertex)
    (i : ℕ) :
    (transformedRingVertices vertexShaderFn uniforms ring_vertex_array)[i]? =
        (ring_vertex_array[i]?.map fun v =>
          vertexShaderFn
            { v with
              position :=
                ⟨v.position.x + 0, v.position.y + (-0.4 : ℚ),
                 v.position.z + 0⟩ }
            uniforms) ∧
      (transformedVertices vertexShaderFn uniforms vertex_array)[i]? =
        (vertex_array[i]?.map fun v => vertexShaderFn v uniforms) := by
  constructor
  · rw [transformedRingVertices, List.getElem?_map]
    rfl
  · rw [transformedVertices, List.getElem?_map]

/-- The action of `rotation_matrix_x` on a homogeneous point. -/
theorem rotation_matrix_x_action (sin_x cos_x : ℚ) (p : Vec3Q) :
    (rotation_matrix_x sin_x cos_x).mulVec (homogeneous p) =
      homogeneous (rotateX sin_x cos_x p) := by
  funext i
  fin_cases i <;>
    simp [rotation_matrix_x, homogeneous, rotateX, Matrix.mulVec,
      Matrix.dotProduct, Fin.sum_univ_four] <;>
    ring

/-- The action of `rotation_matrix_y` on a homogeneous point. -/
theorem rotation_matrix_y_action (sin_y cos_y : ℚ) (p : Vec3Q) :
    (rotation_matrix_y sin_y cos_y).mulVec (homogeneous p) =
      homogeneous (rotateY sin_y cos_y p) := by
  funext i
  fin_cases i <;>
    simp [rotation_matrix_y, homogeneous, rotateY, Matrix.mulVec,
      Matrix.dotProduct, Fin.sum_univ_four] <;>
    ring

/-- The action of `rotation_matrix_z` on a homogeneous point. -/
theorem rotation_matrix_z_action (sin_z cos_z : ℚ) (p : Vec3Q) :
    (rotation_matrix_z sin_z cos_z).mulVec (homogeneous p) =
      homogeneous (rotateZ sin_z cos_z p) := by
  funext i
  fin_cases i <;>
    simp [rotation_matrix_z, homogeneous, rotateZ, Matrix.mulVec,
      Matrix.dotProduct, Fin.sum_univ_four] <;>
    ring

/-- The action of `transform_matrix` on a homogeneous point: scale,
then translate. -/
theorem transform_matrix_action (translation : Vec3Q) (scale : ℚ)
    (p : Vec3Q) :
    (transform_matrix translation scale).mulVec (homogeneous p) =
      homogeneous (translateVec translation (scaleVec scale p)) := by
  funext i
  fin_cases i <;>
    simp [transform_matrix, homogeneous, translateVec, scaleVec,
      Matrix.mulVec, Matrix.dotProduct, Fin.sum_univ_four] <;>
    ring

/-- C6: model-matrix composition — `create_model_matrix` returns the
scale-and-translate matrix multiplied on the right by the combined
rotation `Rz·Ry·Rx`, and consequently acts on every point by rotating
first (X, then Y, then Z axis), then scaling uniformly, then
translating. -/
theorem model_matrix_composition (translation : Vec3Q) (scale : ℚ)
    (sin_x cos_x sin_y cos_y sin_z cos_z : ℚ) (p : Vec3Q) :
    create_model_matrix translation scale sin_x cos_x sin_y cos_y sin_z cos_z =
        transform_matrix translation scale *
          (rotation_matrix_z sin_z cos_z * rotation_matrix_y sin_y cos_y *
            rotation_matrix_x sin_x cos_x) ∧
      (create_model_matrix translation scale sin_x cos_x sin_y cos_y sin_z
            cos_z).mulVec (homogeneous p) =
        homogeneous
          (translateVec translation
            (scaleVec scale
              (rotateZ sin_z cos_z
                (rotateY sin_y cos_y (rotateX sin_x cos_x p))))) := by
  refine ⟨rfl, ?_⟩
  rw [create_model_matrix, rotation_matrix, ← Matrix.mulVec_mulVec,
    ← Matrix.mulVec_mulVec, ← Matrix.mulVec_mulVec,
    rotation_matrix_x_action, rotation_matrix_y_action,
    rotation_matrix_z_action, transform_matrix_action]

/-- The frame pass in the order the spec describes (planet fragments
shaded and composited into the Framebuffer first, the ring pass only
afterwards). This definition follows the spec's words, for comparison
with `render`, which follows the source. -/
def renderSpecOrder (triangleFn : Vertex → Vertex → Vertex → List Fragment)
    (vertexShaderFn : Vertex → Uniforms → Vertex)
    (ring_shader_fn : Fragment → Uniforms → Color)
    (current_shader : Fragment → Uniforms → Color) (fb : Framebuffer)
    (uniforms : Uniforms) (vertex_array ring_vertex_array : List Vertex)
    (show_ring : Bool) : Framebuffer :=
  let fragments := planetFragments triangleFn vertexShaderFn uniforms vertex_array
  let fb1 := fragments.foldl
    (compositeFragment fun f => current_shader f uniforms) fb
  if show_ring then
    ringPass triangleFn vertexShaderFn ring_shader_fn fb1 uniforms
      ring_vertex_array
  else fb1

/-- C4 counterexample: `render` does not composite the planet fragments
before the ring pass. With a rasterizer emitting one fragment at pixel
(0,0) of depth 0, a ring shader coloring 7 and a planet shader coloring
5, a 1×1 framebuffer ends holding the ring's color (the ring pass runs
first and the planet fragment then fails the strict depth test) —
whereas compositing in the spec's claimed order ends holding the
planet's color. -/
theorem render_order_counterexample :
    render (fun _ _ _ => [⟨⟨0, 0⟩, 0, ⟨0, 0, 1⟩, ⟨0, 0⟩, 1⟩])
          (fun v _ => v) (fun _ _ => ⟨0, 0, 7⟩) (fun _ _ => ⟨0, 0, 5⟩)
          (Framebuffer.new 1 1) ⟨1, 1, 1, 1, 0, create_noise⟩
          [⟨⟨0, 0, 0⟩, ⟨0, 0, 1⟩, ⟨0, 0⟩⟩, ⟨⟨0, 0, 0⟩, ⟨0, 0, 1⟩, ⟨0, 0⟩⟩,
           ⟨⟨0, 0, 0⟩, ⟨0, 0, 1⟩, ⟨0, 0⟩⟩]
          [⟨⟨0, 0, 0⟩, ⟨0, 0, 1⟩, ⟨0, 0⟩⟩, ⟨⟨0, 0, 0⟩, ⟨0, 0, 1⟩, ⟨0, 0⟩⟩,
           ⟨⟨0, 0, 0⟩, ⟨0, 0, 1⟩, ⟨0, 0⟩⟩]
          true ≠
      renderSpecOrder (fun _ _ _ => [⟨⟨0, 0⟩, 0, ⟨0, 0, 1⟩, ⟨0, 0⟩, 1⟩])
          (fun v _ => v) (fun _ _ => ⟨0, 0, 7⟩) (fun _ _ => ⟨0, 0, 5⟩)
          (Framebuffer.new 1 1) ⟨1, 1, 1, 1, 0, create_noise⟩
          [⟨⟨0, 0, 0⟩, ⟨0, 0, 1⟩, ⟨0, 0⟩⟩, ⟨⟨0, 0, 0⟩, ⟨0, 0, 1⟩, ⟨0, 0⟩⟩,
           ⟨⟨0, 0, 0⟩, ⟨0, 0, 1⟩, ⟨0, 0⟩⟩]
          [⟨⟨0, 0, 0⟩, ⟨0, 0, 1⟩, ⟨0, 0⟩⟩, ⟨⟨0, 0, 0⟩, ⟨0, 0, 1⟩, ⟨0, 0⟩⟩,
           ⟨⟨0, 0, 0⟩, ⟨0, 0, 1⟩, ⟨0, 0⟩⟩]
          true := by
  decide

/-- C4 (amended): within a frame, `render` first rasterizes the planet
mesh into a fragment list; then, when the ring flag is set, the ring
mesh is transformed, rasterized, shaded and composited into the
Framebuffer; and only afterwards are the collected planet fragments
shaded and composited. With the ring flag clear, only the planet
fragments are composited. -/
theorem render_ring_composited_before_planet
    (triangleFn : Vertex → Vertex → Vertex → List Fragment)
    (vertexShaderFn : Vertex → Uniforms → Vertex)
    (ring_shader_fn : Fragment → Uniforms → Color)
    (current_shader : Fragment → Uniforms → Color) (fb : Framebuffer)
    (uniforms : Uniforms) (vertex_array ring_vertex_array : List Vertex) :
    render triangleFn vertexShaderFn ring_shader_fn current_shader fb uniforms
          vertex_array ring_vertex_array true =
        (planetFragments triangleFn vertexShaderFn uniforms vertex_array).foldl
          (compositeFragment fun f => current_shader f uniforms)
          (ringPass triangleFn vertexShaderFn ring_shader_fn fb uniforms
            ring_vertex_array) ∧
      render triangleFn vertexShaderFn ring_shader_fn current_shader fb
          uniforms vertex_array ring_vertex_array false =
        (planetFragments triangleFn vertexShaderFn uniforms vertex_array).foldl
          (compositeFragment fun f => current_shader f uniforms) fb :=
  ⟨rfl, rfl⟩

end Lab4
